import Mathlib

/-!
Verification of the bloom-allowlist-guard core (src/src/main.rs) via a
shallow embedding.

The program keeps an in-memory Bloom filter (`bloomfilter::Bloom<String>`)
in front of an authoritative Postgres table `bloom_allowlist` of wallet
addresses.  The guard exposes `hydrate`, `check_access` and `add_user`.

Embedding choices:
* `Key` is `String`, matching the wallet-address keys.
* The Bloom filter is modelled at the bit-array level: a filter carries a
  family of hash indexes per key (`hashes`, fixed at construction — the sip
  keys of the crate's `Bloom` never change after `new_for_fp_rate`) and a
  list of currently-set bit indexes (`bits`).  `Bloom.set` sets the key's
  bits; `Bloom.check` tests that all of the key's bits are set.  Every
  theorem below is proved for an arbitrary `hashes` family, so nothing
  depends on the concrete hash functions.
* The Postgres table is modelled as the list of its `wallet_address`
  column values (`Store`); the surrogate `id` column of
  `models::AllowlistEntry` plays no role in any guard operation.
* The store is external I/O, so each fallible interaction (pool
  acquisition, query execution) gets an explicit failure-injection flag,
  and every externally visible action of an operation is recorded in an
  `Event` trace, in program order.
* `check_access` contains `.expect(...)` on the pool acquisition, which
  panics; a panic is modelled as result `none` (a returned boolean is
  `some b`).
-/

abbrev Key := String

/-- Set/tested bit indexes of the key, as produced by the filter's fixed
hash family, and the list of bits currently set in the bit array
(modelling `bloomfilter::Bloom<String>`). -/
structure Bloom where
  hashes : Key → List Nat
  bits : List Nat

/-- `Bloom::set`: sets every bit the key hashes to. -/
def Bloom.set (b : Bloom) (k : Key) : Bloom :=
  { b with bits := b.bits ++ b.hashes k }

/-- `Bloom::check`: true iff every bit the key hashes to is set. -/
def Bloom.check (b : Bloom) (k : Key) : Bool :=
  (b.hashes k).all fun i => b.bits.contains i

/-- `Bloom::new_for_fp_rate`: a fresh filter with no bit set (the sizing
parameters only determine the hash family and bit-array width). -/
def Bloom.fresh (h : Key → List Nat) : Bloom :=
  { hashes := h, bits := [] }

/-- The `bloom_allowlist` table, as its `wallet_address` column. -/
abbrev Store := List Key

/-- Externally visible actions of a guard operation, in program order. -/
inductive Event where
  | getConn
  | storeSelectAll
  | storeInsert (k : Key)
  | storeExists (k : Key)
  | filterTest (k : Key)
  | filterSet (k : Key)
deriving DecidableEq, Repr

/-- `AllowlistGuard`'s in-process mutable state: the filter behind the
`RwLock`.  The pool handle is represented by passing the `Store` and the
failure-injection flags to each operation explicitly. -/
structure AllowlistGuard where
  filter : Bloom

/-- Outcome of `check_access`: the returned boolean (`none` when the call
panics), the trace of actions, and the filter state afterwards. -/
structure CheckOut where
  result : Option Bool
  events : List Event
  filter : Bloom

/-- `AllowlistGuard::check_access`.  Reads the filter; if the key is
definitely absent, returns `false` at once.  Otherwise acquires a pool
connection — via `.expect`, so an acquisition failure (`connFails`) is a
panic — and runs the `exists` query, whose failure (`queryFails`) is
collapsed to `false` by `.unwrap_or(false)`. -/
def check_access (g : AllowlistGuard) (store : Store)
    (connFails queryFails : Bool) (key : Key) : CheckOut :=
  let probably_exists := g.filter.check key
  if !probably_exists then
    { result := some false, events := [Event.filterTest key], filter := g.filter }
  else if connFails then
    { result := none, events := [Event.filterTest key, Event.getConn],
      filter := g.filter }
  else
    let ex : Bool := if queryFails then false else store.contains key
    { result := some ex,
      events := [Event.filterTest key, Event.getConn, Event.storeExists key],
      filter := g.filter }

/-- Outcome of `add_user` / `hydrate`: the `Result`, the guard and store
states afterwards, and the trace of actions. -/
structure MutOut where
  result : Except Unit Unit
  guard : AllowlistGuard
  store : Store
  events : List Event

/-- `AllowlistGuard::add_user`.  Acquires a connection (`?` on failure),
inserts the row (`?` on failure), and only then sets the filter. -/
def add_user (g : AllowlistGuard) (store : Store)
    (connFails insertFails : Bool) (key : Key) : MutOut :=
  if connFails then
    { result := Except.error (), guard := g, store := store,
      events := [Event.getConn] }
  else if insertFails then
    { result := Except.error (), guard := g, store := store,
      events := [Event.getConn, Event.storeInsert key] }
  else
    { result := Except.ok (), guard := { filter := g.filter.set key },
      store := store ++ [key],
      events := [Event.getConn, Event.storeInsert key, Event.filterSet key] }

/-- `AllowlistGuard::hydrate`.  Acquires a connection (`?` on failure),
loads every row (`?` on failure), then takes the write lock on the
existing filter and sets every loaded key in it. -/
def hydrate (g : AllowlistGuard) (store : Store)
    (connFails loadFails : Bool) : MutOut :=
  if connFails then
    { result := Except.error (), guard := g, store := store,
      events := [Event.getConn] }
  else if loadFails then
    { result := Except.error (), guard := g, store := store,
      events := [Event.getConn, Event.storeSelectAll] }
  else
    { result := Except.ok (),
      guard := { filter := store.foldl Bloom.set g.filter },
      store := store,
      events := [Event.getConn, Event.storeSelectAll]
        ++ store.map Event.filterSet }

-- Basic filter lemmas

theorem Bloom.hashes_set (b : Bloom) (k : Key) :
    (b.set k).hashes = b.hashes := rfl

theorem Bloom.check_set_self (b : Bloom) (k : Key) :
    (b.set k).check k = true := by
  simp [Bloom.check, Bloom.set, List.all_eq_true]
  intro i hi
  exact Or.inr hi

theorem Bloom.check_set_mono (b : Bloom) (k k' : Key)
    (h : b.check k = true) : (b.set k').check k = true := by
  simp [Bloom.check, Bloom.set, List.all_eq_true] at h ⊢
  intro i hi
  exact Or.inl (h i hi)

theorem Bloom.check_foldl_mono (l : List Key) (b : Bloom) (k : Key)
    (h : b.check k = true) : (l.foldl Bloom.set b).check k = true := by
  induction l generalizing b with
  | nil => exact h
  | cons x xs ih => exact ih _ (Bloom.check_set_mono b k x h)

theorem Bloom.check_foldl_of_mem (l : List Key) (b : Bloom) (k : Key)
    (h : k ∈ l) : (l.foldl Bloom.set b).check k = true := by
  induction l generalizing b with
  | nil => cases h
  | cons x xs ih =>
    rw [List.foldl_cons]
    rcases List.mem_cons.mp h with h1 | h1
    · subst h1
      exact Bloom.check_foldl_mono xs (b.set k) k (Bloom.check_set_self b k)
    · exact ih (b.set x) h1

-- Concrete instances used by the closed witness/counterexample theorems.

/-- A concrete hash family: the key's length, as its single bit index. -/
def lenHash : Key → List Nat := fun s => [s.length]

/-- A concrete filter with bit 1 set: every length-1 key tests positive. -/
def bloomBit1 : Bloom := { hashes := lenHash, bits := [1] }

/-- A concrete empty filter over `lenHash`. -/
def bloomEmpty : Bloom := Bloom.fresh lenHash

/-- When the filter test is positive, `check_access` reaches the
connection-acquisition step on every branch. -/
theorem getConn_mem_of_filter_pos (g : AllowlistGuard) (store : Store)
    (cf qf : Bool) (k : Key) (h : g.filter.check k = true) :
    Event.getConn ∈ (check_access g store cf qf k).events := by
  unfold check_access
  cases cf <;> simp [h]

/-- C1: every Identifier present in the authoritative store — loaded by a
successful hydrate, or committed by a successful add — tests positive in
the guard's filter, so a subsequent check on it reaches the store step
instead of short-circuiting to false, and a check right after the add
returns true. -/
theorem no_false_negatives_after_hydrate_and_add
    (g : AllowlistGuard) (store : Store) (k : Key) (cf qf : Bool)
    (hmem : k ∈ store) :
    (hydrate g store false false).guard.filter.check k = true
    ∧ Event.getConn ∈
        (check_access (hydrate g store false false).guard store cf qf k).events
    ∧ (add_user g store false false k).guard.filter.check k = true
    ∧ Event.getConn ∈
        (check_access (add_user g store false false k).guard
          (add_user g store false false k).store cf qf k).events
    ∧ (check_access (add_user g store false false k).guard
        (add_user g store false false k).store false false k).result
        = some true := by
  have h1 : (hydrate g store false false).guard.filter.check k = true := by
    simpa [hydrate] using Bloom.check_foldl_of_mem store g.filter k hmem
  have h2 : (add_user g store false false k).guard.filter.check k = true := by
    simpa [add_user] using Bloom.check_set_self g.filter k
  refine ⟨h1, getConn_mem_of_filter_pos _ _ _ _ _ h1, h2,
    getConn_mem_of_filter_pos _ _ _ _ _ h2, ?_⟩
  have h3 : (g.filter.set k).check k = true := Bloom.check_set_self g.filter k
  simp [check_access, add_user, h3]

theorem no_false_negatives_after_hydrate_and_add_witness :
    "z" ∈ (["z"] : Store)
    ∧ ((hydrate ⟨bloomEmpty⟩ ["z"] false false).guard.filter.check "z" = true
    ∧ Event.getConn ∈
        (check_access (hydrate ⟨bloomEmpty⟩ ["z"] false false).guard ["z"]
          false false "z").events
    ∧ (add_user ⟨bloomEmpty⟩ ["z"] false false "z").guard.filter.check "z" = true
    ∧ Event.getConn ∈
        (check_access (add_user ⟨bloomEmpty⟩ ["z"] false false "z").guard
          (add_user ⟨bloomEmpty⟩ ["z"] false false "z").store false false "z").events
    ∧ (check_access (add_user ⟨bloomEmpty⟩ ["z"] false false "z").guard
        (add_user ⟨bloomEmpty⟩ ["z"] false false "z").store false false "z").result
        = some true) :=
  ⟨by decide,
    no_false_negatives_after_hydrate_and_add ⟨bloomEmpty⟩ ["z"] "z" false false
      (by decide)⟩

/-- C2: when the filter test is negative, `check_access` returns `false`
with no store access at all — no connection acquisition and no query;
the trace holds only the filter read.  This holds whatever failures the
store would have produced. -/
theorem filter_shortcircuits_absence
    (g : AllowlistGuard) (store : Store) (cf qf : Bool) (k : Key)
    (h : g.filter.check k = false) :
    (check_access g store cf qf k).result = some false
    ∧ (check_access g store cf qf k).events = [Event.filterTest k] := by
  unfold check_access
  simp [h]

theorem filter_shortcircuits_absence_witness :
    bloomEmpty.check "z" = false
    ∧ ((check_access ⟨bloomEmpty⟩ ["a"] false false "z").result = some false
    ∧ (check_access ⟨bloomEmpty⟩ ["a"] false false "z").events
        = [Event.filterTest "z"]) :=
  ⟨by decide,
    filter_shortcircuits_absence ⟨bloomEmpty⟩ ["a"] false false "z" (by decide)⟩

/-- C3: when the filter test is positive and the store round-trip
succeeds, `check_access` issues exactly one existence query and returns
the store's answer — true iff the store contains the key — whether the
filter hit was a true or a false positive (the store contents are
unconstrained here). -/
theorem store_authoritative_on_filter_pos
    (g : AllowlistGuard) (store : Store) (k : Key)
    (h : g.filter.check k = true) :
    (check_access g store false false k).result = some (store.contains k)
    ∧ (check_access g store false false k).events
        = [Event.filterTest k, Event.getConn, Event.storeExists k]
    ∧ (check_access g store false false k).events.count (Event.storeExists k)
        = 1 := by
  unfold check_access
  simp [h, List.count_cons]

theorem store_authoritative_on_filter_pos_witness :
    bloomBit1.check "z" = true
    ∧ ((check_access ⟨bloomBit1⟩ ["a"] false false "z").result
        = some (List.contains ["a"] "z")
    ∧ (check_access ⟨bloomBit1⟩ ["a"] false false "z").events
        = [Event.filterTest "z", Event.getConn, Event.storeExists "z"]
    ∧ (check_access ⟨bloomBit1⟩ ["a"] false false "z").events.count
        (Event.storeExists "z") = 1) :=
  ⟨by decide,
    store_authoritative_on_filter_pos ⟨bloomBit1⟩ ["a"] "z" (by decide)⟩

/-- C4: when the existence query itself fails, `check_access` returns
`false` to its caller (`.unwrap_or(false)`), denying access rather than
propagating an error or granting access — even when the store does
contain the key. -/
theorem check_denies_on_lookup_failure
    (g : AllowlistGuard) (store : Store) (k : Key)
    (h : g.filter.check k = true) :
    (check_access g store false true k).result = some false := by
  unfold check_access
  simp [h]

theorem check_denies_on_lookup_failure_witness :
    bloomBit1.check "z" = true
    ∧ (check_access ⟨bloomBit1⟩ ["z"] false true "z").result = some false :=
  ⟨by decide, check_denies_on_lookup_failure ⟨bloomBit1⟩ ["z"] "z" (by decide)⟩

/-- C5: the claim that every error path in `check_access` resolves to a
returned boolean is violated by the code: on a key that passes the filter,
a failed connection acquisition hits `.expect("Failed to get DB
connection")`, which panics (modelled as result `none`) instead of
returning a boolean. -/
theorem check_panics_on_conn_failure :
    bloomBit1.check "z" = true
    ∧ (check_access ⟨bloomBit1⟩ ["z"] true false "z").result = none := by
  constructor <;> decide

/-- C6: `add_user` performs the store insertion before the filter
insertion (visible in the success trace), and the filter is written only
when the store insertion succeeded: if connection acquisition or the
insert fails, the call returns the error, the guard's filter is exactly
what it was, and the trace holds no filter write. -/
theorem add_store_first_filter_only_on_success
    (g : AllowlistGuard) (store : Store) (insf : Bool) (k : Key) :
    ((add_user g store true insf k).result = Except.error ()
      ∧ (add_user g store true insf k).guard = g
      ∧ (add_user g store true insf k).events = [Event.getConn])
    ∧ ((add_user g store false true k).result = Except.error ()
      ∧ (add_user g store false true k).guard = g
      ∧ (add_user g store false true k).events
          = [Event.getConn, Event.storeInsert k])
    ∧ (add_user g store false false k).events
        = [Event.getConn, Event.storeInsert k, Event.filterSet k] := by
  unfold add_user
  simp

/-- C7 counterexample: hydrate does not build a fresh filter.  With the
store empty, a successful hydrate keeps the pre-existing positive "z" of
the old filter, while a freshly constructed filter hydrated from the same
(empty) snapshot rejects "z" — so the post-hydrate filter is not "exactly
the insertions made from the loaded snapshot and nothing carried over". -/
theorem hydrate_not_fresh_counterexample :
    (hydrate ⟨bloomBit1⟩ [] false false).result = Except.ok ()
    ∧ (hydrate ⟨bloomBit1⟩ [] false false).guard.filter.check "z" = true
    ∧ (([] : Store).foldl Bloom.set (Bloom.fresh bloomBit1.hashes)).check "z"
        = false := by
  refine ⟨rfl, by decide, by decide⟩

/-- C7 amended: a successful hydrate loads all stored Identifiers and
inserts every one of them, in load order, into the guard's existing
filter in place under the write lock; afterwards the filter state is the
previous filter with every loaded Identifier inserted — previous contents
are carried over, not replaced. -/
theorem hydrate_inserts_into_existing_filter
    (g : AllowlistGuard) (store : Store) :
    (hydrate g store false false).result = Except.ok ()
    ∧ (hydrate g store false false).guard.filter
        = store.foldl Bloom.set g.filter
    ∧ (hydrate g store false false).events
        = [Event.getConn, Event.storeSelectAll] ++ store.map Event.filterSet := by
  unfold hydrate
  simp

/-- C8: `check_access` never mutates the filter — its filter state after
the call equals the one before, on the short-circuit path, the store
path, and every failure branch. -/
theorem check_leaves_filter_unchanged
    (g : AllowlistGuard) (store : Store) (cf qf : Bool) (k : Key) :
    (check_access g store cf qf k).filter = g.filter := by
  unfold check_access
  cases h : g.filter.check k <;> cases cf <;> simp [h]

/-- C9: filter insertion is idempotent at the level of test results —
inserting the same key twice gives a filter whose test agrees with the
once-inserted filter on every key, and the inserted key tests stably
true after both one and two insertions. -/
theorem filter_insert_idempotent (b : Bloom) (k x : Key) :
    ((b.set k).set k).check x = (b.set k).check x
    ∧ ((b.set k).set k).check k = true
    ∧ (b.set k).check k = true := by
  refine ⟨?_, Bloom.check_set_self (b.set k) k, Bloom.check_set_self b k⟩
  rw [Bool.eq_iff_iff]
  simp [Bloom.check, Bloom.set, List.all_eq_true]

/-- C10: every failure point in `hydrate` precedes the first filter
write: if connection acquisition or the load query fails, hydrate
returns the error, the guard (hence its filter) is exactly what it was,
and the trace holds no filter write. -/
theorem hydrate_failure_leaves_filter_unchanged
    (g : AllowlistGuard) (store : Store) :
    ((hydrate g store true false).result = Except.error ()
      ∧ (hydrate g store true false).guard = g
      ∧ (hydrate g store true false).events = [Event.getConn])
    ∧ ((hydrate g store false true).result = Except.error ()
      ∧ (hydrate g store false true).guard = g
      ∧ (hydrate g store false true).events
          = [Event.getConn, Event.storeSelectAll]) := by
  unfold hydrate
  simp
